import Mathlib

/-!
# InfoFetch (`ShopifyStoreScraper`) — verification of spec claims

A shallow embedding of `src/scraper.py` (class `ShopifyStoreScraper`).
Pure helpers of the Python standard library / dependencies (`str.strip`,
`str.title`, `str.replace`, `urlparse(...).netloc`, `re` patterns used by the
code) are translated into executable Lean functions.  Network traffic
(`requests.Session.get`), DOM parsing (`BeautifulSoup`) and text extraction
(`trafilatura.extract`) are external capabilities (spec §6): they are
modelled as explicit environment/oracle inputs to each function, typed
exactly as the source consumes them.  A Python exception is modelled with
`Except`: `.error .reqExn` is a `requests.RequestException`,
`.error .otherExn` any other `Exception`.
-/

/-- Python `str.isspace`-style ASCII whitespace, as matched by `str.strip()`
and `\s` in the source's regexes (the model restricts to ASCII inputs). -/
def isPySpace (c : Char) : Bool :=
  c = ' ' || c = '\t' || c = '\n' || c = '\r' || c = Char.ofNat 11 || c = Char.ofNat 12

/-- Python `str.strip()` on a list of characters. -/
def pyStripList (cs : List Char) : List Char :=
  ((cs.dropWhile isPySpace).reverse.dropWhile isPySpace).reverse

/-- Python `str.strip()`. -/
def pyStrip (s : String) : String :=
  ⟨pyStripList s.data⟩

/-- Python `str.title()` (ASCII): a letter begins a word iff the previous
character is not a letter; word-initial letters are uppercased, the rest
lowercased. -/
def pyTitleGo : Bool → List Char → List Char
  | _, [] => []
  | prevAlpha, c :: cs =>
    if c.isAlpha then
      (if prevAlpha then c.toLower else c.toUpper) :: pyTitleGo true cs
    else
      c :: pyTitleGo false cs

/-- Python `str.title()` (ASCII scope). -/
def pyTitle (s : String) : String :=
  ⟨pyTitleGo false s.data⟩

/-- Case-insensitive list prefix test (models `re.IGNORECASE` on a literal). -/
def ciPrefixList : List Char → List Char → Bool
  | [], _ => true
  | _ :: _, [] => false
  | p :: ps, c :: cs => p.toLower = c.toLower && ciPrefixList ps cs

/-- Does `needle` occur as a (case-sensitive) contiguous substring?  Models a
Python `in` test on strings and `re.search` of a plain literal pattern. -/
def hasSubstrList (needle : List Char) : List Char → Bool
  | [] => needle.isEmpty
  | c :: cs => needle.isPrefixOf (c :: cs) || hasSubstrList needle cs

/-- Python `needle in s` substring test. -/
def hasSubstr (needle s : String) : Bool :=
  hasSubstrList needle.data s.data

/-- Python `dict` assignment `d[k] = v` on an insertion-ordered association
list: an existing key keeps its position and gets the new value, a new key is
appended. -/
def pyUpdate {α : Type} (d : List (String × α)) (k : String) (v : α) :
    List (String × α) :=
  match d with
  | [] => [(k, v)]
  | (k', v') :: rest => if k' = k then (k, v) :: rest else (k', v') :: pyUpdate rest k v

/-- Python `list(set(xs))` for strings.  CPython's iteration order over a
`set` is unspecified; the model fixes first-occurrence order, and no claim
depends on the order of the result, only on its elements. -/
def pySetListAux : List String → List String → List String
  | [], _ => []
  | x :: xs, seen => if x ∈ seen then pySetListAux xs seen else x :: pySetListAux xs (x :: seen)

/-- Python `list(set(xs))`, with the order fixed to first occurrence (see
`pySetListAux`). -/
def pySetList (l : List String) : List String :=
  pySetListAux l []

/-- Python `str.lower()` (ASCII). -/
def pyLower (s : String) : String :=
  ⟨s.data.map Char.toLower⟩

/-- Python `str.replace(pat, rep)` (all non-overlapping occurrences, left to
right), with a step-count argument that any `cs.length` bounds; the
degenerate empty pattern (never passed by the source) leaves the string
unchanged. -/
def replaceFuel (pat rep : List Char) : Nat → List Char → List Char
  | _, [] => []
  | 0, cs => cs
  | fuel + 1, c :: cs =>
    if pat ≠ [] ∧ pat.isPrefixOf (c :: cs) then
      rep ++ replaceFuel pat rep fuel ((c :: cs).drop pat.length)
    else c :: replaceFuel pat rep fuel cs

/-- Python `str.replace(pat, rep)`. -/
def pyReplace (s pat rep : String) : String :=
  ⟨replaceFuel pat.data rep.data s.data.length s.data⟩

/-- Python `urlparse(url).netloc` for absolute `http`/`https` URLs (the only shapes
`scrape_store` produces after normalization): the text between the scheme's
`//` and the next `/`, `?` or `#`. -/
def netlocOf (url : String) : String :=
  if "http://".data.isPrefixOf url.data then
    ⟨(url.data.drop 7).takeWhile (fun c => !(c = '/' || c = '?' || c = '#'))⟩
  else if "https://".data.isPrefixOf url.data then
    ⟨(url.data.drop 8).takeWhile (fun c => !(c = '/' || c = '?' || c = '#'))⟩
  else ""

/-! ## Records produced by the extractors (spec §3) -/

/-- One entry of `social_handles` (`{'handle': …, 'url': …}`). -/
structure SocialEntry where
  handle : String
  url : String
deriving DecidableEq

/-- One element of `hero_products` (lines 186–191). -/
structure HeroProduct where
  title : String
  url : String
  image : String
  price : String
deriving DecidableEq

/-- One element of `faqs` (lines 272–275). -/
structure FAQR where
  question : String
  answer : String
deriving DecidableEq

/-- One element of `important_links` (lines 464–468). -/
structure LinkR where
  category : String
  title : String
  url : String
deriving DecidableEq

/-- One element of `products` (lines 136–147).  `Option` marks values that
Python's `dict.get` may resolve to `None`; prices are exact rationals. -/
structure ProductR where
  id : Option Int
  title : Option String
  handle : Option String
  vendor : Option String
  product_type : Option String
  tags : List String
  price_range : Option (ℚ × ℚ)
  available : Bool
  images : List (Option String)
  url : String
deriving DecidableEq

/-- A value of the contact-details dict: a list of strings (emails/phones)
or a single string (address). -/
inductive CVal : Type
  | cList (l : List String)
  | cStr (s : String)
deriving DecidableEq

/-- A Python exception class, as far as `scrape_store`'s handlers
distinguish them (lines 71–76). -/
inductive PyExn : Type
  | reqExn   -- `requests.RequestException`
  | otherExn -- any other `Exception`
deriving DecidableEq

/-! ## The insights dict (lines 44–56) -/

/-- The value stored under one key of the insights dict, with one
constructor per Python value type the source puts at the top level. -/
inductive Val : Type
  | vStr (s : String)
  | vProducts (l : List ProductR)
  | vHeroes (l : List HeroProduct)
  | vFaqs (l : List FAQR)
  | vSocial (d : List (String × SocialEntry))
  | vContact (d : List (String × CVal))
  | vLinks (l : List LinkR)
deriving DecidableEq

/-- The insights dict: insertion-ordered string-keyed Python dict. -/
abbrev Insights := List (String × Val)

/-- The eleven keys of the dict literal at lines 44–56, in source order. -/
def declaredKeys : List String :=
  ["store_name", "website_url", "products", "hero_products", "privacy_policy",
   "return_policy", "faqs", "social_handles", "contact_details",
   "brand_context", "important_links"]

/-- Is `v` of the Python type the source stores under key `k`? -/
def keyShape : String → Val → Prop
  | "store_name", .vStr _ => True
  | "website_url", .vStr _ => True
  | "products", .vProducts _ => True
  | "hero_products", .vHeroes _ => True
  | "privacy_policy", .vStr _ => True
  | "return_policy", .vStr _ => True
  | "faqs", .vFaqs _ => True
  | "social_handles", .vSocial _ => True
  | "contact_details", .vContact _ => True
  | "brand_context", .vStr _ => True
  | "important_links", .vLinks _ => True
  | _, _ => False

/-- The dict literal of lines 44–56: all eleven keys with their initial
empty values (`store_name` and `website_url` already filled). -/
def initInsights (store_name website_url : String) : Insights :=
  [("store_name", .vStr store_name), ("website_url", .vStr website_url),
   ("products", .vProducts []), ("hero_products", .vHeroes []),
   ("privacy_policy", .vStr ""), ("return_policy", .vStr ""),
   ("faqs", .vFaqs []), ("social_handles", .vSocial []),
   ("contact_details", .vContact []), ("brand_context", .vStr ""),
   ("important_links", .vLinks [])]

/-! ## Top-level orchestrator `scrape_store` (lines 20–76)

The environment holds, per step of the method body, the outcome that the
network/DOM would produce for this request.  For each private extractor the
slot is the outcome of the *body* of that extractor (its own `try` block
where it has one); `scrape_store` below re-applies exactly the
`try`/`except` structure written in the source:

* `_scrape_products` (lines 125–156) wraps its whole body in
  `try/except Exception` and falls through to `return []`;
* `_scrape_hero_products` (lines 171–216) wraps the accumulation loop in
  `try/except Exception` and returns the list accumulated so far, carried
  here on the error side;
* `_scrape_policy_page`, `_scrape_faqs`, `_scrape_brand_context` and
  `_scrape_contact_page` catch every exception *per candidate path* and
  `continue`, so no exception can escape them: their slots are plain values;
* `_extract_store_name` (98–123), `_extract_social_handles` (287–326),
  `_extract_contact_details` (328–370) and `_extract_important_links`
  (427–482) contain no `try` at all: their exceptions reach the handlers of
  `scrape_store`, where `requests.RequestException` is turned into `None`
  (line 73) and any other exception is re-raised (line 76). -/
structure ScrapeEnv where
  /-- `self.session.get(website_url, …)` → status code, or the exception it raised. -/
  fetchHome : Except PyExn Nat
  /-- `BeautifulSoup(response.content, 'html.parser')` (and the log-only
  `_is_shopify_store` scan) — succeeds or raises. -/
  parseHome : Except PyExn Unit
  /-- outcome of `_extract_store_name` (no internal `try`). -/
  storeName : Except PyExn String
  /-- outcome of the `try` body of `_scrape_products`. -/
  products : Except PyExn (List ProductR)
  /-- outcome of the `try`-wrapped loop of `_scrape_hero_products`; on the
  error side, the list accumulated before the exception. -/
  heroesRun : Except (PyExn × List HeroProduct) (List HeroProduct)
  /-- value of `_scrape_privacy_policy` (cannot raise: per-path `try`). -/
  privacy : String
  /-- value of `_scrape_return_policy` (cannot raise: per-path `try`). -/
  returnPolicy : String
  /-- value of `_scrape_faqs` (cannot raise: per-path `try`). -/
  faqs : List FAQR
  /-- outcome of `_extract_social_handles` (no internal `try`). -/
  social : Except PyExn (List (String × SocialEntry))
  /-- outcome of `_extract_contact_details` (no own `try`; its helper
  `_scrape_contact_page` swallows its errors per path). -/
  contact : Except PyExn (List (String × CVal))
  /-- value of `_scrape_brand_context` (cannot raise: per-path `try`). -/
  brand : String
  /-- outcome of `_extract_important_links` (no internal `try`). -/
  links : Except PyExn (List LinkR)

/-- URL normalization, lines 26–27. -/
def normalizeUrl (website_url : String) : String :=
  if "http://".data.isPrefixOf website_url.data ||
     "https://".data.isPrefixOf website_url.data then
    website_url
  else "https://" ++ website_url

/-- The `try/except Exception` of `_scrape_products` (lines 127–156): any
exception degrades the catalog to `[]`. -/
def absorbProducts : Except PyExn (List ProductR) → List ProductR
  | .ok l => l
  | .error _ => []

/-- The `try/except Exception` of `_scrape_hero_products` (lines 175–216): on an
exception the list accumulated so far is returned. -/
def absorbHeroes : Except (PyExn × List HeroProduct) (List HeroProduct) → List HeroProduct
  | .ok l => l
  | .error (_, partialList) => partialList

/-- Lines 58–69: fill the insights dict field by field, in source order. -/
def buildInsights (env : ScrapeEnv) (name url : String)
    (social : List (String × SocialEntry)) (contact : List (String × CVal))
    (links : List LinkR) : Insights :=
  let d := initInsights name url
  let d := pyUpdate d "products" (.vProducts (absorbProducts env.products))
  let d := pyUpdate d "hero_products" (.vHeroes (absorbHeroes env.heroesRun))
  let d := pyUpdate d "privacy_policy" (.vStr env.privacy)
  let d := pyUpdate d "return_policy" (.vStr env.returnPolicy)
  let d := pyUpdate d "faqs" (.vFaqs env.faqs)
  let d := pyUpdate d "social_handles" (.vSocial social)
  let d := pyUpdate d "contact_details" (.vContact contact)
  let d := pyUpdate d "brand_context" (.vStr env.brand)
  let d := pyUpdate d "important_links" (.vLinks links)
  d

/-- The `try` body of `scrape_store` (lines 24–69).  `ok none` is the
`return None` of line 33, `ok (some d)` the `return insights` of line 69,
`error e` an exception travelling towards the handlers. -/
def scrapeBody (env : ScrapeEnv) (website_url : String) :
    Except PyExn (Option Insights) :=
  let url := normalizeUrl website_url
  match env.fetchHome with
  | .error e => .error e
  | .ok status =>
    if status ≠ 200 then .ok none
    else
      match env.parseHome with
      | .error e => .error e
      | .ok _ =>
        match env.storeName with
        | .error e => .error e
        | .ok name =>
          match env.social with
          | .error e => .error e
          | .ok social =>
            match env.contact with
            | .error e => .error e
            | .ok contact =>
              match env.links with
              | .error e => .error e
              | .ok links => .ok (some (buildInsights env name url social contact links))

/-- The handlers of lines 71–76: `requests.RequestException` → `return None`,
any other exception → `raise`. -/
def handleTop (r : Except PyExn (Option Insights)) : Except PyExn (Option Insights) :=
  match r with
  | .error .reqExn => .ok none
  | r => r

/-- Method `ShopifyStoreScraper.scrape_store` (lines 20–76).  The returned value is
`ok none` for the NOT_FOUND signal (`None`), `ok (some d)` for a produced
insights dict, and `error e` when the method raises (the spec §6/§7
hard-failure signal — a raise, not a returned value). -/
def scrape_store (env : ScrapeEnv) (website_url : String) :
    Except PyExn (Option Insights) :=
  handleTop (scrapeBody env website_url)

/-! ## C1: result shape -/

theorem buildInsights_eq (env : ScrapeEnv) (name url : String) (social) (contact) (links) :
    buildInsights env name url social contact links =
      [("store_name", .vStr name), ("website_url", .vStr url),
       ("products", .vProducts (absorbProducts env.products)),
       ("hero_products", .vHeroes (absorbHeroes env.heroesRun)),
       ("privacy_policy", .vStr env.privacy),
       ("return_policy", .vStr env.returnPolicy),
       ("faqs", .vFaqs env.faqs), ("social_handles", .vSocial social),
       ("contact_details", .vContact contact),
       ("brand_context", .vStr env.brand),
       ("important_links", .vLinks links)] := by
  rfl

/-- C1.  For every input URL, `scrape_store` either raises (which is a
propagated exception, not a returned object), or returns the `None`
NOT_FOUND signal, or returns an insights dict whose keys are exactly the
eleven declared ones in source order, each bound to a value of the declared
Python type — never a partially-shaped dict with a missing or null field. -/
theorem c1_scrape_shape (env : ScrapeEnv) (url : String) :
    (∃ e, scrape_store env url = .error e) ∨
    scrape_store env url = .ok none ∨
    (∃ d, scrape_store env url = .ok (some d) ∧
      d.map Prod.fst = declaredKeys ∧ ∀ kv ∈ d, keyShape kv.1 kv.2) := by
  unfold scrape_store scrapeBody handleTop
  rcases hf : env.fetchHome with e | status
  · cases e <;> simp
  · by_cases hs : status = 200
    · subst hs
      simp only [ne_eq, not_true_eq_false, if_false, reduceIte]
      rcases hp : env.parseHome with e | _
      · cases e <;> simp
      · rcases hn : env.storeName with e | name
        · cases e <;> simp
        · rcases hso : env.social with e | social
          · cases e <;> simp
          · rcases hc : env.contact with e | contact
            · cases e <;> simp
            · rcases hl : env.links with e | links
              · cases e <;> simp
              · right; right
                refine ⟨_, rfl, ?_, ?_⟩
                · rw [buildInsights_eq]; rfl
                · intro kv hkv
                  rw [buildInsights_eq] at hkv
                  simp only [List.mem_cons, List.not_mem_nil, or_false] at hkv
                  rcases hkv with h|h|h|h|h|h|h|h|h|h|h <;> subst h <;> trivial
    · simp [hs]

/-! ## C2: unreachable homepage → NOT_FOUND, before extraction -/

/-- C2.  If the homepage `GET` raises a network error, or responds with any
non-2xx status, `scrape_store` returns the NOT_FOUND signal `None` (it does
not raise), and this is independent of every extractor slot of the
environment — no field extraction influences the outcome. -/
theorem c2_unreachable_not_found (env : ScrapeEnv) (url : String)
    (h : env.fetchHome = .error .reqExn ∨
         ∃ s, env.fetchHome = .ok s ∧ (s < 200 ∨ 300 ≤ s)) :
    scrape_store env url = .ok none := by
  unfold scrape_store scrapeBody handleTop
  rcases h with h | ⟨s, hs, hrange⟩
  · rw [h]
  · rw [hs]
    have : s ≠ 200 := by omega
    simp [this]

/-- A concrete benign environment: homepage 200, every extractor succeeds
with an empty result. -/
def benignEnv : ScrapeEnv :=
  { fetchHome := .ok 200, parseHome := .ok (), storeName := .ok "Store",
    products := .ok [], heroesRun := .ok [], privacy := "", returnPolicy := "",
    faqs := [], social := .ok [], contact := .ok [], brand := "", links := .ok [] }

theorem c2_unreachable_not_found_witness :
    ({ benignEnv with fetchHome := .ok 404 } : ScrapeEnv).fetchHome = .ok 404 ∧
    scrape_store { benignEnv with fetchHome := .ok 404 } "https://acme.com" = .ok none :=
  ⟨rfl, c2_unreachable_not_found _ _ (Or.inr ⟨404, rfl, by omega⟩)⟩

/-! ## C10: only status exactly 200 counts as reachable -/

/-- C10.  `scrape_store` treats every homepage status other than exactly 200
— including 2xx codes such as 201 or 204 — as unreachable and returns the
NOT_FOUND signal, and a profile dict is produced only when the homepage
responded with status exactly 200. -/
theorem c10_only_200 :
    (∀ (env : ScrapeEnv) (url : String) (s : Nat),
       env.fetchHome = .ok s → s ≠ 200 → scrape_store env url = .ok none) ∧
    (∀ (env : ScrapeEnv) (url : String) (d : Insights),
       scrape_store env url = .ok (some d) → env.fetchHome = .ok 200) := by
  constructor
  · intro env url s hs hne
    unfold scrape_store scrapeBody handleTop
    rw [hs]
    simp [hne]
  · intro env url d h
    unfold scrape_store scrapeBody handleTop at h
    rcases hf : env.fetchHome with e | status
    · rw [hf] at h; cases e <;> simp_all
    · rw [hf] at h
      by_cases hs : status = 200
      · rw [hs]
      · simp [hs] at h

theorem c10_only_200_witness :
    ({ benignEnv with fetchHome := .ok 201 } : ScrapeEnv).fetchHome = .ok 201 ∧
    scrape_store { benignEnv with fetchHome := .ok 201 } "https://acme.com" = .ok none :=
  ⟨rfl, c10_only_200.1 _ "https://acme.com" 201 rfl (by omega)⟩

/-! ## C3: exception isolation of the field extractors -/

/-- An environment in which everything up to the social-handle extractor
succeeds and `_extract_social_handles` raises a non-network exception. -/
def socialRaisesEnv : ScrapeEnv :=
  { benignEnv with social := .error .otherExn }

/-- C3, counterexample.  An exception raised inside the individual field
extractor `_extract_social_handles` (which contains no `try`) propagates
out of `scrape_store` as a hard failure instead of resolving that one
field to its empty value: the later extractors never contribute and the
scrape does not succeed.  This refutes the claim that only the top-level
fetch/parse step may propagate a hard failure. -/
theorem c3_isolation_counterexample :
    scrape_store socialRaisesEnv "https://acme.com" = .error .otherExn ∧
    socialRaisesEnv.fetchHome = .ok 200 ∧ socialRaisesEnv.parseHome = .ok () :=
  ⟨rfl, rfl, rfl⟩

/-- C3, amended.  Exception isolation holds exactly for the extractors that
guard their own bodies: an exception inside `_scrape_products` degrades only
the catalog to `[]`, one inside `_scrape_hero_products` keeps the partial
hero list, and the whole scrape proceeds as if those bodies had returned
those values (the policy/FAQ/brand/contact-page probes swallow every
exception per candidate path, so they cannot raise at all).  In contrast,
`_extract_store_name`, `_extract_social_handles`, `_extract_contact_details`
and `_extract_important_links` have no guard: an exception there escapes
the extractor — a `requests.RequestException` is then caught at the top
level and turns the whole result into NOT_FOUND, and any other exception
propagates out of `scrape_store` as a hard failure. -/
theorem c3_isolation_amended :
    (∀ (env : ScrapeEnv) (url : String) (e : PyExn),
       scrape_store { env with products := .error e } url =
       scrape_store { env with products := .ok [] } url) ∧
    (∀ (env : ScrapeEnv) (url : String) (e : PyExn) (l : List HeroProduct),
       scrape_store { env with heroesRun := .error (e, l) } url =
       scrape_store { env with heroesRun := .ok l } url) ∧
    (∀ (env : ScrapeEnv) (url : String),
       env.fetchHome = .ok 200 → env.parseHome = .ok () →
       env.storeName = .error .otherExn →
       scrape_store env url = .error .otherExn) ∧
    (∀ (env : ScrapeEnv) (url : String) (name : String),
       env.fetchHome = .ok 200 → env.parseHome = .ok () →
       env.storeName = .ok name → env.social = .error .otherExn →
       scrape_store env url = .error .otherExn) ∧
    (∀ (env : ScrapeEnv) (url : String) (name : String),
       env.fetchHome = .ok 200 → env.parseHome = .ok () →
       env.storeName = .ok name → env.social = .error .reqExn →
       scrape_store env url = .ok none) ∧
    (∀ (env : ScrapeEnv) (url : String) (name : String)
       (social : List (String × SocialEntry)),
       env.fetchHome = .ok 200 → env.parseHome = .ok () →
       env.storeName = .ok name → env.social = .ok social →
       env.contact = .error .otherExn →
       scrape_store env url = .error .otherExn) ∧
    (∀ (env : ScrapeEnv) (url : String) (name : String)
       (social : List (String × SocialEntry)) (contact : List (String × CVal)),
       env.fetchHome = .ok 200 → env.parseHome = .ok () →
       env.storeName = .ok name → env.social = .ok social →
       env.contact = .ok contact → env.links = .error .otherExn →
       scrape_store env url = .error .otherExn) := by
  refine ⟨?_, ?_, ?_, ?_, ?_, ?_, ?_⟩
  · intro env url e
    unfold scrape_store scrapeBody handleTop buildInsights
    simp [absorbProducts]
  · intro env url e l
    unfold scrape_store scrapeBody handleTop buildInsights
    simp [absorbHeroes]
  · intro env url h200 hp hn
    unfold scrape_store scrapeBody handleTop
    rw [h200, hp, hn]
    simp
  · intro env url name h200 hp hn hs
    unfold scrape_store scrapeBody handleTop
    rw [h200, hp, hn, hs]
    simp
  · intro env url name h200 hp hn hs
    unfold scrape_store scrapeBody handleTop
    rw [h200, hp, hn, hs]
    simp
  · intro env url name social h200 hp hn hs hc
    unfold scrape_store scrapeBody handleTop
    rw [h200, hp, hn, hs, hc]
    simp
  · intro env url name social contact h200 hp hn hs hc hl
    unfold scrape_store scrapeBody handleTop
    rw [h200, hp, hn, hs, hc, hl]
    simp

theorem c3_isolation_amended_witness :
    ({ benignEnv with contact := .error .otherExn } : ScrapeEnv).contact = .error .otherExn ∧
    scrape_store { benignEnv with contact := .error .otherExn } "https://acme.com" =
      .error .otherExn ∧
    scrape_store { benignEnv with products := .error .otherExn } "https://acme.com" =
      scrape_store { benignEnv with products := .ok [] } "https://acme.com" :=
  ⟨rfl,
   c3_isolation_amended.2.2.2.2.2.1 _ "https://acme.com" "Store" [] rfl rfl rfl rfl rfl,
   c3_isolation_amended.1 benignEnv "https://acme.com" .otherExn⟩

/-! ## C9: catalog price range (`_extract_price_range`, lines 158–169) -/

/-- Python `float(s)` on plain decimal notation: optional surrounding
whitespace, optional sign, then digits, a dot with digits on at least one
side, exactly as `float` accepts them; the value is kept exactly as a
rational.  (Python's `float` also accepts exponent/`inf`/`nan` spellings and
underscores, which the catalog feed's price strings never use; on such
strings this model is conservative.)  `none` models a raised `ValueError`. -/
def pyFloat (s : String) : Option ℚ :=
  let cs := pyStripList s.data
  let body := fun (cs : List Char) =>
    let intPart := cs.takeWhile Char.isDigit
    let rest := cs.drop intPart.length
    match rest with
    | [] =>
      if intPart.isEmpty then none
      else some ((intPart.foldl (fun a c => 10 * a + (c.toNat - 48)) 0 : ℕ) : ℚ)
    | '.' :: frac =>
      if frac.all Char.isDigit && !(intPart.isEmpty && frac.isEmpty) then
        some (((intPart.foldl (fun a c => 10 * a + (c.toNat - 48)) 0 : ℕ) : ℚ) +
              ((frac.foldl (fun a c => 10 * a + (c.toNat - 48)) 0 : ℕ) : ℚ) /
                ((10 : ℚ) ^ frac.length))
      else none
    | _ => none
  match cs with
  | '+' :: rest => body rest
  | '-' :: rest => (body rest).map Neg.neg
  | _ => body cs

/-- One entry of the feed's `variants` list, as `_extract_price_range`
consumes it: `price` is `some s` when `variant.get('price')` yields the
truthy string `s`, `none` when the key is absent or its value falsy. -/
structure Variant where
  price : Option String
deriving DecidableEq

/-- The truthy price strings of the variants, in order (the generator's
`if variant.get('price')` filter, line 163). -/
def truthyPrices (variants : List Variant) : List String :=
  variants.filterMap Variant.price

/-- Python `min(prices)` over a nonempty list. -/
def listMinQ (p : ℚ) (l : List ℚ) : ℚ := l.foldl min p

/-- Python `max(prices)` over a nonempty list. -/
def listMaxQ (p : ℚ) (l : List ℚ) : ℚ := l.foldl max p

/-- Python `float` applied to each element in order, as the list comprehension of
line 163 does: the first unparseable string raises (`none`). -/
def floatAll : List String → Option (List ℚ)
  | [] => some []
  | s :: rest =>
    match pyFloat s with
    | none => none
    | some q => (floatAll rest).map (q :: ·)

/-- Helper `_extract_price_range` (lines 158–169).  `ok none` is the empty dict
`{}`, `ok (some (lo, hi))` the dict `{'min_price': lo, 'max_price': hi}`,
and `error ()` a `ValueError` raised by `float(...)` on a truthy price that
does not parse — the comprehension of line 163 evaluates `float` on every
truthy price and the exception escapes this helper (to be absorbed by
`_scrape_products`' handler). -/
def extract_price_range (variants : List Variant) : Except Unit (Option (ℚ × ℚ)) :=
  if variants.isEmpty then .ok none
  else
    match floatAll (truthyPrices variants) with
    | none => .error ()
    | some [] => .ok none
    | some (p :: ps) => .ok (some (listMinQ p ps, listMaxQ p ps))

/-- Modelled from the spec's words (§4.4 / claim C9), for comparison with
`extract_price_range`: "min/max over all variant prices that parse as
numbers; empty map if no variant has a price" — an unparseable price is
simply skipped rather than raising. -/
def priceRangeSpec (variants : List Variant) : Option (ℚ × ℚ) :=
  match variants.filterMap (fun v => v.price.bind pyFloat) with
  | [] => none
  | p :: ps => some (listMinQ p ps, listMaxQ p ps)

/-- C9, counterexample.  For a feed variant whose truthy price string does
not parse as a number, the claim says the price is excluded from the
min/max (leaving the empty map here); the code instead lets `float` raise,
so `_extract_price_range` produces no price range at all — the exception
escapes.  Hence the claimed equality with the parse-filtering min/max
fails. -/
theorem c9_price_range_counterexample :
    extract_price_range [⟨some "abc"⟩] = .error () ∧
    priceRangeSpec [⟨some "abc"⟩] = none ∧
    extract_price_range [⟨some "abc"⟩] ≠ .ok (priceRangeSpec [⟨some "abc"⟩]) := by
  refine ⟨rfl, rfl, fun h => ?_⟩
  rw [show extract_price_range [⟨some "abc"⟩] = .error () from rfl,
      show priceRangeSpec [⟨some "abc"⟩] = none from rfl] at h
  exact Except.noConfusion h

/-- C9, amended.  Provided every truthy variant price parses as a number,
the price range is min/max over the parsed prices and the empty map when no
variant has a (truthy, parseable) price; in particular variants priced
[10, 25, 10] yield `{min_price: 10, max_price: 25}` and an unpriced feed
yields `{}`.  When some truthy price fails to parse, `float` raises instead
(see the counterexample). -/
theorem c9_price_range_amended :
    (∀ variants : List Variant,
       (∀ s ∈ truthyPrices variants, (pyFloat s).isSome) →
       extract_price_range variants = .ok (priceRangeSpec variants)) ∧
    extract_price_range [⟨some "10"⟩, ⟨some "25"⟩, ⟨some "10"⟩] =
      .ok (some ((10 : ℚ), (25 : ℚ))) ∧
    extract_price_range [⟨none⟩, ⟨none⟩] = .ok none ∧
    extract_price_range [] = .ok none := by
  refine ⟨?_, rfl, rfl, rfl⟩
  intro variants hall
  have key : ∀ l : List String, (∀ s ∈ l, (pyFloat s).isSome) →
      floatAll l = some (l.filterMap pyFloat) := by
    intro l
    induction l with
    | nil => intro _; rfl
    | cons s rest ih =>
      intro h
      obtain ⟨q, hq⟩ := Option.isSome_iff_exists.mp (h s (List.mem_cons_self s rest))
      have hrest := ih (fun t ht => h t (List.mem_cons_of_mem s ht))
      simp [floatAll, hq, hrest, List.filterMap_cons, hq]
  have hfm : (truthyPrices variants).filterMap pyFloat =
      variants.filterMap (fun v => v.price.bind pyFloat) := by
    simp [truthyPrices, List.filterMap_filterMap]
  rcases hv : variants with _ | ⟨v, vs⟩
  · rfl
  · rw [← hv]
    have hne : variants.isEmpty = false := by rw [hv]; rfl
    unfold extract_price_range
    rw [hne, key _ (fun s hs => hall s hs), hfm]
    unfold priceRangeSpec
    rcases hq : variants.filterMap (fun v => v.price.bind pyFloat) with _ | ⟨p, ps⟩ <;>
      rw [hq] <;> rfl

theorem c9_price_range_amended_witness :
    (∀ s ∈ truthyPrices [⟨some "10"⟩], (pyFloat s).isSome) ∧
    extract_price_range [⟨some "10"⟩] = .ok (priceRangeSpec [⟨some "10"⟩]) :=
  ⟨by decide, c9_price_range_amended.1 [⟨some "10"⟩] (by decide)⟩

/-! ## C8: store name (`_extract_store_name`, lines 98–123) -/

/-- The separator class `[-–|]` of the title-suffix pattern (line 105). -/
def dashChar (c : Char) : Bool :=
  c = '-' || c = '–' || c = '|'

/-- The alternation `(Shop|Store|Online|eCommerce)` under `re.IGNORECASE`,
tried in pattern order at the head of `cs`; returns the remainder after the
keyword.  (No keyword is a prefix of another, so at most one alternative can
match at a given position.) -/
def suffixKeywordAt (cs : List Char) : Option (List Char) :=
  if ciPrefixList "shop".data cs then some (cs.drop 4)
  else if ciPrefixList "store".data cs then some (cs.drop 5)
  else if ciPrefixList "online".data cs then some (cs.drop 6)
  else if ciPrefixList "ecommerce".data cs then some (cs.drop 9)
  else none

/-- The tail `.*$` without `re.DOTALL`/`re.MULTILINE`: `.` stops at a newline and `$`
matches only at the end of the string or just before a single trailing
newline.  Returns what the substitution keeps after the match (nothing, or
that trailing newline), or `none` when the tail cannot complete a match. -/
def dollarTail (cs : List Char) : Option (List Char) :=
  let after := cs.dropWhile (fun c => !(c = '\n'))
  if after = [] then some []
  else if after = ['\n'] then some ['\n'] else none

/-- One attempt of `\s*[-–|]\s*(Shop|Store|Online|eCommerce).*$` at the head
of `cs`: on success, the part the substitution keeps after the match. -/
def trySuffixMatchAt (cs : List Char) : Option (List Char) :=
  match cs.dropWhile isPySpace with
  | [] => none
  | d :: s2 =>
    if dashChar d then
      match suffixKeywordAt (s2.dropWhile isPySpace) with
      | some s4 => dollarTail s4
      | none => none
    else none

/-- The substitution `re.sub(r'\s*[-–|]\s*(Shop|Store|Online|eCommerce).*$', '', title, IGNORECASE)`
by a left-to-right scan for the leftmost match; after a match, everything
from the match start is replaced by what `$` left over, and nothing further
can match there. -/
def titleSubGo : List Char → List Char
  | [] => []
  | c :: cs =>
    match trySuffixMatchAt (c :: cs) with
    | some tail => tail
    | none => c :: titleSubGo cs

/-- The title-suffix substitution of line 105. -/
def titleSub (s : String) : String :=
  ⟨titleSubGo s.data⟩

/-- The three homepage lookups `_extract_store_name` performs on the parsed
DOM: `soup.find('title')`'s text, `soup.find('meta', property='og:site_name')`
(present? and its `content` attribute), and `soup.find('img', alt=True)`
(the `alt` value of the first image that has an `alt` attribute). -/
structure NameSoup where
  titleText : Option String
  ogSiteName : Option (Option String)
  firstAlt : Option String

/-- The domain fallback of lines 121–123: netloc, `str.replace` chain,
`str.title()`. -/
def domainFallback (website_url : String) : String :=
  pyTitle (pyReplace (pyReplace (pyReplace (netlocOf website_url)
    "www." "") ".com" "") ".myshopify.com" "")

/-- Third step of the chain (lines 114–119): first `alt`-bearing image. -/
def nameFromAlt (soup : NameSoup) (website_url : String) : String :=
  match soup.firstAlt with
  | some a =>
    if a ≠ "" then
      let alt := pyStrip a
      if alt ≠ "" ∧ ¬(pyLower alt = "logo" ∨ pyLower alt = "image") then alt
      else domainFallback website_url
    else domainFallback website_url
  | none => domainFallback website_url

/-- Second step of the chain (lines 109–112): `og:site_name` metadata. -/
def nameFromMeta (soup : NameSoup) (website_url : String) : String :=
  match soup.ogSiteName with
  | some (some c) => if c ≠ "" then pyStrip c else nameFromAlt soup website_url
  | _ => nameFromAlt soup website_url

/-- Extractor `_extract_store_name` (lines 98–123). -/
def extract_store_name (soup : NameSoup) (website_url : String) : String :=
  match soup.titleText with
  | some t =>
    let title := titleSub (pyStrip t)
    if title ≠ "" then title else nameFromMeta soup website_url
  | none => nameFromMeta soup website_url

/-- C8, counterexample.  With no title tag and an `og:site_name` meta tag
whose content is a single space, the truthiness test on the raw content
passes but the returned `content.strip()` is empty: `_extract_store_name`
returns the empty string, refuting "returns a non-empty string" as
universally claimed. -/
theorem c8_store_name_counterexample :
    extract_store_name ⟨none, some (some " "), none⟩ "https://acme.com" = "" := by
  rfl

theorem nameFromAlt_ne (tt : Option String) (og : Option (Option String))
    (fa : Option String) (url : String) (hdom : domainFallback url ≠ "") :
    nameFromAlt ⟨tt, og, fa⟩ url ≠ "" := by
  unfold nameFromAlt
  cases fa with
  | none => exact hdom
  | some a =>
    simp only
    split_ifs with h1 h2
    · exact h2.1
    · exact hdom
    · exact hdom

theorem nameFromMeta_ne (tt : Option String) (og : Option (Option String))
    (fa : Option String) (url : String)
    (hog : ∀ c, og = some (some c) → c ≠ "" → pyStrip c ≠ "")
    (hdom : domainFallback url ≠ "") :
    nameFromMeta ⟨tt, og, fa⟩ url ≠ "" := by
  unfold nameFromMeta
  match og, hog with
  | none, _ => exact nameFromAlt_ne _ _ _ _ hdom
  | some none, _ => exact nameFromAlt_ne _ _ _ _ hdom
  | some (some c), hog =>
    simp only
    split_ifs with h1
    · exact hog c rfl h1
    · exact nameFromAlt_ne _ _ _ _ hdom

/-- C8, amended.  `_extract_store_name` applies the fallback chain: when the
title tag's stripped, suffix-substituted text is non-empty it is returned
(so a title "Acme Co - Shop Online" yields "Acme Co"); otherwise the
`og:site_name` content, then the first alt-bearing image's usable alt text,
then the domain fallback (so with none of those, `https://www.acme-goods.com`
yields "Acme-Goods").  The result is non-empty provided the degenerate cases
of the counterexample do not occur: a used `og:site_name` content must not
strip to empty, and the domain fallback of the URL must itself be
non-empty. -/
theorem c8_store_name_amended :
    (∀ (soup : NameSoup) (url t : String), soup.titleText = some t →
       titleSub (pyStrip t) ≠ "" →
       extract_store_name soup url = titleSub (pyStrip t)) ∧
    extract_store_name ⟨some "Acme Co - Shop Online", none, none⟩
      "https://acme.com" = "Acme Co" ∧
    extract_store_name ⟨none, none, none⟩ "https://www.acme-goods.com" =
      "Acme-Goods" ∧
    (∀ (soup : NameSoup) (url : String),
       (∀ c, soup.ogSiteName = some (some c) → c ≠ "" → pyStrip c ≠ "") →
       domainFallback url ≠ "" →
       extract_store_name soup url ≠ "") := by
  refine ⟨?_, by rfl, by rfl, ?_⟩
  · intro soup url t ht hne
    unfold extract_store_name
    rw [ht]
    simp [hne]
  · rintro ⟨tt, og, fa⟩ url hog hdom
    unfold extract_store_name
    cases tt with
    | none => exact nameFromMeta_ne _ _ _ _ hog hdom
    | some t =>
      simp only
      split_ifs with h1
      · exact h1
      · exact nameFromMeta_ne _ _ _ _ hog hdom

theorem c8_store_name_amended_witness :
    domainFallback "https://www.acme-goods.com" ≠ "" ∧
    extract_store_name ⟨none, none, none⟩ "https://www.acme-goods.com" ≠ "" :=
  ⟨by decide,
   c8_store_name_amended.2.2.2 ⟨none, none, none⟩ "https://www.acme-goods.com"
     (fun c h => nomatch h) (by decide)⟩

/-! ## C5: hero products (`_scrape_hero_products`, lines 171–216) -/

/-- A homepage anchor element, with the pieces `_scrape_hero_products` reads
from it: its `href` attribute (if any), its visible text (`get_text()`,
unstripped), `link.find('img')`'s `src` attribute (outer `none` = no nested
`img`, inner `none` = `img` without `src`), and the text of
`link.find(class_=re.compile(r'price', re.I))` (`none` = no such
descendant). -/
structure Anchor where
  href : Option String
  text : String
  firstImgSrc : Option (Option String)
  firstPriceText : Option String
deriving DecidableEq

/-- The query `soup.find_all('a', href=re.compile(r'/products/'))`: anchors carrying an
`href` in which the pattern `/products/` matches (i.e. occurs as a
substring). -/
def productLinksOf (anchors : List Anchor) : List Anchor :=
  anchors.filter (fun a =>
    match a.href with
    | some h => hasSubstr "/products/" h
    | none => false)


/-- Entry `product_info['image']` for one link (lines 198–201): the nested image's
`src` if the image exists and its `src` is truthy, else the initial `''`. -/
def imageOf (a : Anchor) : String :=
  match a.firstImgSrc with
  | some (some s) => if s ≠ "" then s else ""
  | _ => ""

/-- Entry `product_info['price']` for one link (lines 203–206). -/
def priceOf (a : Anchor) : String :=
  match a.firstPriceText with
  | some t => pyStrip t
  | none => ""

/-- The `product_info` dict built for one accepted link (lines 185–206),
with `urljoin` passed in as the external `urllib.parse` capability. -/
def mkHero (uj : String → String → String) (base : String) (a : Anchor) : HeroProduct :=
  { title := pyStrip a.text, url := uj base (a.href.getD ""),
    image := imageOf a, price := priceOf a }

/-- The acceptance test of line 208, `if product_info['title'] or
product_info['image']`, phrased on the anchor whose `product_info` is being
built (its `title`/`image` entries are exactly these two expressions). -/
def heroKeepB (a : Anchor) : Bool :=
  decide (pyStrip a.text ≠ "" ∨ imageOf a ≠ "")

/-- The `for link in product_links[:6]` loop (lines 180–209): `seen` is the
`seen_products` set; a falsy or already-seen href is skipped, a seen href is
recorded before the title/image filter, and a candidate with both title and
image empty is dropped. -/
def heroLoop (uj : String → String → String) (base : String) :
    List Anchor → List String → List HeroProduct
  | [], _ => []
  | a :: rest, seen =>
    match a.href with
    | none => heroLoop uj base rest seen
    | some h =>
      if h ≠ "" ∧ h ∉ seen then
        if heroKeepB a then mkHero uj base a :: heroLoop uj base rest (h :: seen)
        else heroLoop uj base rest (h :: seen)
      else heroLoop uj base rest seen

/-- Extractor `_scrape_hero_products` (lines 171–216) on an already-fetched homepage:
slice to the first 6 product links, then the seen-set loop.  (The `try`
around the loop is handled at the orchestrator level, `ScrapeEnv.heroesRun`.) -/
def scrape_hero_products (uj : String → String → String) (anchors : List Anchor)
    (base : String) : List HeroProduct :=
  heroLoop uj base ((productLinksOf anchors).take 6) []

/-- The anchors the loop accepts, in document order: first occurrence of
each truthy href. -/
def dedupHref : List Anchor → List String → List Anchor
  | [], _ => []
  | a :: rest, seen =>
    match a.href with
    | none => dedupHref rest seen
    | some h =>
      if h ≠ "" ∧ h ∉ seen then a :: dedupHref rest (h :: seen)
      else dedupHref rest seen

/-- The `seen_products` set after scanning `l` starting from `seen`. -/
def seenAfter : List Anchor → List String → List String
  | [], seen => seen
  | a :: rest, seen =>
    match a.href with
    | none => seenAfter rest seen
    | some h =>
      if h ≠ "" ∧ h ∉ seen then seenAfter rest (h :: seen)
      else seenAfter rest seen

theorem heroLoop_eq_dedup (uj : String → String → String) (base : String) :
    ∀ (l : List Anchor) (seen : List String),
      heroLoop uj base l seen =
        ((dedupHref l seen).filter heroKeepB).map (mkHero uj base) := by
  intro l
  induction l with
  | nil => intro seen; rfl
  | cons a rest ih =>
    intro seen
    obtain ⟨oh, tx, im, pr⟩ := a
    cases oh with
    | none =>
      simp only [heroLoop, dedupHref]
      exact ih seen
    | some h =>
      simp only [heroLoop, dedupHref]
      by_cases hc : h ≠ "" ∧ h ∉ seen
      · rw [if_pos hc, if_pos hc]
        by_cases hk : heroKeepB ⟨some h, tx, im, pr⟩ = true
        · rw [if_pos hk, List.filter_cons, if_pos hk, List.map_cons]
          rw [ih (h :: seen)]
        · rw [if_neg hk, List.filter_cons, if_neg hk]
          exact ih (h :: seen)
      · rw [if_neg hc, if_neg hc]
        exact ih seen

theorem dedupHref_append (l₂ : List Anchor) :
    ∀ (l₁ : List Anchor) (seen : List String),
      dedupHref (l₁ ++ l₂) seen =
        dedupHref l₁ seen ++ dedupHref l₂ (seenAfter l₁ seen) := by
  intro l₁
  induction l₁ with
  | nil => intro seen; rfl
  | cons a rest ih =>
    intro seen
    obtain ⟨oh, tx, im, pr⟩ := a
    cases oh with
    | none =>
      simp only [List.cons_append, dedupHref, seenAfter, List.append_eq]
      exact ih seen
    | some h =>
      simp only [List.cons_append, dedupHref, seenAfter]
      by_cases hc : h ≠ "" ∧ h ∉ seen
      · simp only [if_pos hc, List.cons_append, List.append_eq]
        rw [ih (h :: seen)]
      · simp only [if_neg hc, List.append_eq]
        exact ih seen

theorem dedupHref_length_le : ∀ (l : List Anchor) (seen : List String),
    (dedupHref l seen).length ≤ l.length := by
  intro l
  induction l with
  | nil => intro seen; exact Nat.le_refl 0
  | cons a rest ih =>
    intro seen
    obtain ⟨oh, tx, im, pr⟩ := a
    cases oh with
    | none =>
      simp only [dedupHref]
      exact Nat.le_succ_of_le (ih seen)
    | some h =>
      simp only [dedupHref]
      by_cases hc : h ≠ "" ∧ h ∉ seen
      · rw [if_pos hc]
        simp only [List.length_cons]
        exact Nat.succ_le_succ (ih (h :: seen))
      · rw [if_neg hc]
        exact Nat.le_succ_of_le (ih seen)

theorem dedupHref_hrefs_nodup : ∀ (l : List Anchor) (seen : List String),
    ((dedupHref l seen).map Anchor.href).Nodup ∧
    ∀ a ∈ dedupHref l seen, ∃ h, a.href = some h ∧ h ∉ seen := by
  intro l
  induction l with
  | nil =>
    intro seen
    exact ⟨List.nodup_nil, by intro a ha; cases ha⟩
  | cons a rest ih =>
    intro seen
    obtain ⟨oh, tx, im, pr⟩ := a
    cases oh with
    | none =>
      simp only [dedupHref]
      exact ih seen
    | some h =>
      simp only [dedupHref]
      by_cases hc : h ≠ "" ∧ h ∉ seen
      · rw [if_pos hc]
        obtain ⟨ihn, ihm⟩ := ih (h :: seen)
        constructor
        · rw [List.map_cons, List.nodup_cons]
          refine ⟨?_, ihn⟩
          intro hmem
          obtain ⟨b, hb, hbh⟩ := List.mem_map.mp hmem
          obtain ⟨h', hh', hns⟩ := ihm b hb
          rw [hh'] at hbh
          have hh : h' = h := by cases hbh; rfl
          exact hns (hh ▸ List.mem_cons_self h seen)
        · intro b hb
          rcases List.mem_cons.mp hb with rfl | hb'
          · exact ⟨h, rfl, hc.2⟩
          · obtain ⟨h', hh', hns⟩ := ihm b hb'
            exact ⟨h', hh', fun hmem => hns (List.mem_cons_of_mem h hmem)⟩
      · rw [if_neg hc]
        exact ih seen

theorem take_append_length {α : Type} (xs ys : List α) :
    (xs ++ ys).take xs.length = xs := by
  induction xs with
  | nil => rfl
  | cons x rest ih => simp [List.take_cons, ih]

/-- C5.  The hero-product extractor equals the map of the product-info
builder over the first-occurrence deduplication (by href) of the *first 6*
homepage product links, filtered to candidates with a non-empty title or
image (a candidate with both empty is discarded).  That deduplicated
selection is a prefix of the distinct product links of the whole document
(so document order is preserved), has length at most 6, and contains no
duplicate hrefs; consequently the result itself has length at most 6 — in
particular for a homepage with 8 distinct product links. -/
theorem c5_hero_products (uj : String → String → String) (anchors : List Anchor)
    (base : String) :
    scrape_hero_products uj anchors base =
      ((dedupHref ((productLinksOf anchors).take 6) []).filter heroKeepB).map
        (mkHero uj base) ∧
    dedupHref ((productLinksOf anchors).take 6) [] =
      (dedupHref (productLinksOf anchors) []).take
        (dedupHref ((productLinksOf anchors).take 6) []).length ∧
    (dedupHref ((productLinksOf anchors).take 6) []).length ≤ 6 ∧
    ((dedupHref ((productLinksOf anchors).take 6) []).map Anchor.href).Nodup ∧
    (scrape_hero_products uj anchors base).length ≤ 6 := by
  have hlen : (dedupHref ((productLinksOf anchors).take 6) []).length ≤ 6 := by
    calc (dedupHref ((productLinksOf anchors).take 6) []).length
        ≤ ((productLinksOf anchors).take 6).length := dedupHref_length_le _ _
      _ ≤ 6 := List.length_take_le 6 (productLinksOf anchors)
  have heq := heroLoop_eq_dedup uj base ((productLinksOf anchors).take 6) []
  refine ⟨heq, ?_, hlen, (dedupHref_hrefs_nodup _ _).1, ?_⟩
  · have hsplit : dedupHref (productLinksOf anchors) [] =
        dedupHref ((productLinksOf anchors).take 6) [] ++
          dedupHref ((productLinksOf anchors).drop 6)
            (seenAfter ((productLinksOf anchors).take 6) []) := by
      conv_lhs => rw [← List.take_append_drop 6 (productLinksOf anchors)]
      exact dedupHref_append _ _ _
    rw [hsplit, take_append_length]
  · calc (scrape_hero_products uj anchors base).length
        = (((dedupHref ((productLinksOf anchors).take 6) []).filter heroKeepB).map
            (mkHero uj base)).length := by
              rw [show scrape_hero_products uj anchors base =
                heroLoop uj base ((productLinksOf anchors).take 6) [] from rfl, heq]
      _ ≤ (dedupHref ((productLinksOf anchors).take 6) []).length := by
            rw [List.length_map]; exact List.length_filter_le _ _
      _ ≤ 6 := hlen

/-! ## C6: FAQs (`_scrape_faqs`, lines 246–285) -/

/-- A sibling element as the FAQ scan sees it: tag name and text. -/
structure Elem where
  tag : String
  text : String
deriving DecidableEq

/-- A candidate question element (one of `h1`…`h6`, `dt` inside a FAQ
section, line 263): its text and its following siblings in document order. -/
structure Heading where
  text : String
  siblings : List Elem
deriving DecidableEq

/-- A `div`/`section` whose class matches `faq|question|accordion`
(line 260), as the scan uses it: its candidate question elements. -/
structure FaqSection where
  headings : List Heading
deriving DecidableEq

/-- The filter of `q.find_next_sibling(['p', 'div', 'dd'])` (line 268). -/
def isAnswerTag (e : Elem) : Bool :=
  e.tag = "p" || e.tag = "div" || e.tag = "dd"

/-- Lines 264–275 for one candidate question: accept only a non-empty
stripped text containing `'?'`; the answer is the stripped text of the first
following sibling that is a `p`/`div`/`dd`, and the pair is emitted only when
that answer text is non-empty. -/
def faqOfHeading (q : Heading) : Option FAQR :=
  if pyStrip q.text ≠ "" ∧ (pyStrip q.text).data.contains '?' then
    match q.siblings.find? isAnswerTag with
    | some e =>
      if pyStrip e.text ≠ "" then some ⟨pyStrip q.text, pyStrip e.text⟩ else none
    | none => none
  else none

/-- The inner `for q in questions` loop for one section (lines 263–275). -/
def faqsOfSection (sec : FaqSection) : List FAQR :=
  sec.headings.filterMap faqOfHeading

/-- The `for section in faq_sections` loop (lines 262–275). -/
def faqsOfSections : List FaqSection → List FAQR
  | [] => []
  | s :: rest => faqsOfSection s ++ faqsOfSections rest

/-- The candidate paths of line 248, in order. -/
def faq_paths : List String :=
  ["faq", "faqs", "help", "support", "pages/faq"]

/-- The path loop of lines 250–283: per path, fetch and parse (the `env`
oracle — an exception is caught by the per-path `try` and the loop
continues); on a 200 response, extract FAQs and return them if non-empty,
else move on; `[]` when every path fails. -/
def scrapeFaqsGo (uj : String → String → String)
    (env : String → Except PyExn (Nat × List FaqSection)) (website_url : String) :
    List String → List FAQR
  | [] => []
  | p :: rest =>
    match env (uj website_url ("/" ++ p)) with
    | .error _ => scrapeFaqsGo uj env website_url rest
    | .ok (status, sections) =>
      if status = 200 then
        if faqsOfSections sections ≠ [] then faqsOfSections sections
        else scrapeFaqsGo uj env website_url rest
      else scrapeFaqsGo uj env website_url rest

/-- Extractor `_scrape_faqs` (lines 246–285), with `urljoin` and the network/parse as
external capabilities. -/
def scrape_faqs (uj : String → String → String)
    (env : String → Except PyExn (Nat × List FaqSection)) (website_url : String) :
    List FAQR :=
  scrapeFaqsGo uj env website_url faq_paths

theorem faqOfHeading_some {q : Heading} {f : FAQR} (h : faqOfHeading q = some f) :
    f.question = pyStrip q.text ∧ f.question.data.contains '?' = true ∧
    ∃ e, q.siblings.find? isAnswerTag = some e ∧ f.answer = pyStrip e.text ∧
      f.answer ≠ "" := by
  unfold faqOfHeading at h
  split at h
  case isTrue hq =>
    split at h
    next e heq =>
      split at h
      case isTrue ha =>
        obtain rfl := Option.some.inj h
        exact ⟨rfl, hq.2, e, heq, rfl, ha⟩
      case isFalse ha => cases h
    next heq => cases h
  case isFalse hq => cases h

theorem mem_faqsOfSections {f : FAQR} :
    ∀ {sections : List FaqSection}, f ∈ faqsOfSections sections →
      ∃ sec ∈ sections, f ∈ faqsOfSection sec := by
  intro sections
  induction sections with
  | nil => intro h; cases h
  | cons s rest ih =>
    intro h
    rcases List.mem_append.mp h with hs | hr
    · exact ⟨s, List.mem_cons_self s rest, hs⟩
    · obtain ⟨sec, hsec, hf⟩ := ih hr
      exact ⟨sec, List.mem_cons_of_mem s hsec, hf⟩

theorem scrapeFaqsGo_mem (uj : String → String → String)
    (env : String → Except PyExn (Nat × List FaqSection)) (url : String) :
    ∀ (paths : List String) (f : FAQR), f ∈ scrapeFaqsGo uj env url paths →
      ∃ p ∈ paths, ∃ status sections,
        env (uj url ("/" ++ p)) = .ok (status, sections) ∧ status = 200 ∧
        f ∈ faqsOfSections sections := by
  intro paths
  induction paths with
  | nil => intro f h; cases h
  | cons p rest ih =>
    intro f h
    unfold scrapeFaqsGo at h
    split at h
    next e heq =>
      obtain ⟨p', hp', rest'⟩ := ih f h
      exact ⟨p', List.mem_cons_of_mem p hp', rest'⟩
    next status sections heq =>
      split at h
      case isTrue hs =>
        split at h
        case isTrue hne =>
          exact ⟨p, List.mem_cons_self p rest, status, sections, heq, hs, h⟩
        case isFalse hne =>
          obtain ⟨p', hp', rest'⟩ := ih f h
          exact ⟨p', List.mem_cons_of_mem p hp', rest'⟩
      case isFalse hs =>
        obtain ⟨p', hp', rest'⟩ := ih f h
        exact ⟨p', List.mem_cons_of_mem p hp', rest'⟩

/-- C6.  Every FAQ `_scrape_faqs` emits comes from a candidate question
element of some FAQ section of the first FAQ-ish path that responded 200
with a non-empty extraction: its question is that element's stripped text
and contains `'?'` (a question without `'?'` is never emitted, even when
followed by answer text), and its answer is the non-empty stripped text of
the first following sibling `p`/`div`/`dd` element of the question heading
(a heading with no such qualifying sibling, or whose sibling's text strips
to empty, is excluded). -/
theorem c6_faq_pair_invariant (uj : String → String → String)
    (env : String → Except PyExn (Nat × List FaqSection)) (url : String)
    (f : FAQR) (hf : f ∈ scrape_faqs uj env url) :
    f.question.data.contains '?' = true ∧ f.answer ≠ "" ∧
    ∃ p ∈ faq_paths, ∃ status sections,
      env (uj url ("/" ++ p)) = .ok (status, sections) ∧ status = 200 ∧
      ∃ sec ∈ sections, ∃ q ∈ sec.headings, ∃ e : Elem,
        f.question = pyStrip q.text ∧
        q.siblings.find? isAnswerTag = some e ∧
        f.answer = pyStrip e.text := by
  obtain ⟨p, hp, status, sections, henv, hstatus, hmem⟩ :=
    scrapeFaqsGo_mem uj env url faq_paths f hf
  obtain ⟨sec, hsec, hfs⟩ := mem_faqsOfSections hmem
  obtain ⟨q, hq, hsome⟩ := List.mem_filterMap.mp hfs
  obtain ⟨hqt, hqm, e, hfind, hans, hane⟩ := faqOfHeading_some hsome
  exact ⟨hqt ▸ hqm, hane, p, hp, status, sections, henv, hstatus,
    sec, hsec, q, hq, e, hqt, hfind, hans⟩

/-- Inputs for the `c6` witness: a single FAQ page behind every path. -/
def c6Env : String → Except PyExn (Nat × List FaqSection) :=
  fun _ => .ok (200, [⟨[⟨"Q?", [⟨"p", "A"⟩]⟩]⟩])

theorem c6_faq_pair_invariant_witness :
    (⟨"Q?", "A"⟩ : FAQR) ∈ scrape_faqs (fun b p => b ++ p) c6Env "https://x.com" ∧
    ((⟨"Q?", "A"⟩ : FAQR).question.data.contains '?' = true ∧
     (⟨"Q?", "A"⟩ : FAQR).answer ≠ "" ∧
     ∃ p ∈ faq_paths, ∃ status sections,
       c6Env ((fun b p => b ++ p) "https://x.com" ("/" ++ p)) = .ok (status, sections) ∧
       status = 200 ∧
       ∃ sec ∈ sections, ∃ q ∈ sec.headings, ∃ e : Elem,
         (⟨"Q?", "A"⟩ : FAQR).question = pyStrip q.text ∧
         q.siblings.find? isAnswerTag = some e ∧
         (⟨"Q?", "A"⟩ : FAQR).answer = pyStrip e.text) :=
  ⟨by decide,
   c6_faq_pair_invariant (fun b p => b ++ p) c6Env "https://x.com" ⟨"Q?", "A"⟩ (by decide)⟩

/-! ## C4: social handles (`_extract_social_handles`, lines 287–326) -/

/-- One capture pattern of the `social_patterns` table (lines 291–298).
Every pattern there has the same shape: a literal (matched under
`re.IGNORECASE`) directly followed by one capture group `([class]+)`.  So a
pattern is its literal plus the character class of the group. -/
structure SPat where
  lit : String
  good : Char → Bool

/-- The class `[^/\s"']` used by the URL-path patterns. -/
def urlHandleChar (c : Char) : Bool :=
  !(c = '/' || isPySpace c || c = '"' || c = Char.ofNat 39)

/-- The class `[a-zA-Z0-9_.]` of the `@([a-zA-Z0-9_.]+)` pattern. -/
def atHandleChar (c : Char) : Bool :=
  c.isAlpha || c.isDigit || c = '_' || c = '.'

/-- Search `re.search(pattern, s, re.IGNORECASE)` for such a pattern: the leftmost
position where the literal matches case-insensitively and is followed by at
least one class character yields the match; the capture group takes the
maximal class run there (greedy `+` with nothing after it). -/
def searchCaptureGo (lit : List Char) (good : Char → Bool) : List Char → Option String
  | [] => none
  | c :: cs =>
    if ciPrefixList lit (c :: cs) ∧ ((c :: cs).drop lit.length).takeWhile good ≠ [] then
      some ⟨((c :: cs).drop lit.length).takeWhile good⟩
    else searchCaptureGo lit good cs

/-- The capture `re.search(pattern, s, re.IGNORECASE).group(1)` as an `Option`. -/
def searchCapture (p : SPat) (s : String) : Option String :=
  searchCaptureGo p.lit.data p.good s.data

/-- The `social_patterns` dict (lines 291–298), in insertion order. -/
def social_patterns : List (String × List SPat) :=
  [("instagram", [⟨"instagram.com/", urlHandleChar⟩, ⟨"@", atHandleChar⟩]),
   ("facebook", [⟨"facebook.com/", urlHandleChar⟩]),
   ("twitter", [⟨"twitter.com/", urlHandleChar⟩, ⟨"x.com/", urlHandleChar⟩]),
   ("tiktok", [⟨"tiktok.com/@", urlHandleChar⟩]),
   ("youtube", [⟨"youtube.com/", urlHandleChar⟩]),
   ("linkedin", [⟨"linkedin.com/", urlHandleChar⟩])]

/-- The `for link in links` loop for one pattern (lines 307–315): the first
anchor href the pattern matches, with its capture; the `break` stops at that
first match. -/
def firstLinkMatch (p : SPat) (links : List String) : Option (String × String) :=
  links.findSome? (fun href => (searchCapture p href).map (fun h => (h, href)))

/-- One iteration of the `for pattern in patterns` body (lines 305–324): the
link search (which assigns unconditionally on a match — even for an
already-matched platform), then, only when the platform is still absent, the
page-text search with the synthesized URL. -/
def socialStep (links : List String) (page_text : String) (platform : String)
    (d : List (String × SocialEntry)) (p : SPat) : List (String × SocialEntry) :=
  match firstLinkMatch p links with
  | some (h, href) => pyUpdate d platform ⟨h, href⟩
  | none =>
    match d.lookup platform with
    | some _ => d
    | none =>
      match searchCapture p page_text with
      | some h => pyUpdate d platform ⟨h, "https://" ++ platform ++ ".com/" ++ h⟩
      | none => d

/-- The `for pattern in patterns` loop for one platform. -/
def socialPlatform (links : List String) (page_text : String) (platform : String) :
    List SPat → List (String × SocialEntry) → List (String × SocialEntry)
  | [], d => d
  | p :: ps, d =>
    socialPlatform links page_text platform ps (socialStep links page_text platform d p)

/-- The `for platform, patterns in social_patterns.items()` loop. -/
def socialTable (links : List String) (page_text : String) :
    List (String × List SPat) → List (String × SocialEntry) → List (String × SocialEntry)
  | [], d => d
  | (plat, pats) :: rest, d =>
    socialTable links page_text rest (socialPlatform links page_text plat pats d)

/-- Extractor `_extract_social_handles` (lines 287–326): `links` are the hrefs of
`soup.find_all('a', href=True)`, `page_text` is `soup.get_text()`. -/
def extract_social_handles (links : List String) (page_text : String) :
    List (String × SocialEntry) :=
  socialTable links page_text social_patterns []

/-- The platform/pattern pairs of a pattern table. -/
def pairsOfTable : List (String × List SPat) → List (String × SPat)
  | [] => []
  | (plat, pats) :: rest => pats.map (fun p => (plat, p)) ++ pairsOfTable rest

/-- Where a final `social_handles` entry can come from: one of its
platform's patterns either link-matched (first matching anchor wins, href
kept verbatim as the url) or — that pattern matching no anchor — text-matched
(url synthesized as `https://{platform}.com/{handle}`). -/
def SocialProv (links : List String) (page_text : String)
    (pr : String × SocialEntry) : Prop :=
  ∃ p : SPat, (pr.1, p) ∈ pairsOfTable social_patterns ∧
    (firstLinkMatch p links = some (pr.2.handle, pr.2.url) ∨
     (firstLinkMatch p links = none ∧
      searchCapture p page_text = some pr.2.handle ∧
      pr.2.url = "https://" ++ pr.1 ++ ".com/" ++ pr.2.handle))

theorem pyUpdate_mem {α : Type} (d : List (String × α)) (k : String) (v : α) :
    ∀ x ∈ pyUpdate d k v, x ∈ d ∨ x = (k, v) := by
  induction d with
  | nil =>
    intro x hx
    rcases List.mem_cons.mp hx with rfl | h
    · exact Or.inr rfl
    · cases h
  | cons kv rest ih =>
    obtain ⟨k', v'⟩ := kv
    intro x hx
    unfold pyUpdate at hx
    by_cases hk : k' = k
    · rw [if_pos hk] at hx
      rcases List.mem_cons.mp hx with rfl | h
      · exact Or.inr rfl
      · exact Or.inl (List.mem_cons_of_mem _ h)
    · rw [if_neg hk] at hx
      rcases List.mem_cons.mp hx with rfl | h
      · exact Or.inl (List.mem_cons_self _ _)
      · rcases ih x h with h' | h'
        · exact Or.inl (List.mem_cons_of_mem _ h')
        · exact Or.inr h'

theorem pyUpdate_keys_mem {α : Type} (d : List (String × α)) (k : String) (v : α) :
    ∀ a ∈ (pyUpdate d k v).map Prod.fst, a ∈ d.map Prod.fst ∨ a = k := by
  intro a ha
  obtain ⟨x, hx, rfl⟩ := List.mem_map.mp ha
  rcases pyUpdate_mem d k v x hx with h | rfl
  · exact Or.inl (List.mem_map.mpr ⟨x, h, rfl⟩)
  · exact Or.inr rfl

theorem pyUpdate_keys_nodup {α : Type} (d : List (String × α)) (k : String) (v : α)
    (hd : (d.map Prod.fst).Nodup) : ((pyUpdate d k v).map Prod.fst).Nodup := by
  induction d with
  | nil => exact List.nodup_singleton k
  | cons kv rest ih =>
    obtain ⟨k', v'⟩ := kv
    rw [List.map_cons, List.nodup_cons] at hd
    unfold pyUpdate
    by_cases hk : k' = k
    · subst hk
      rw [if_pos rfl, List.map_cons, List.nodup_cons]
      exact hd
    · rw [if_neg hk, List.map_cons, List.nodup_cons]
      refine ⟨?_, ih hd.2⟩
      intro hmem
      rcases pyUpdate_keys_mem rest k v k' hmem with h | h
      · exact hd.1 h
      · exact hk h

theorem socialStep_nodup (links : List String) (pt : String) (plat : String)
    (d : List (String × SocialEntry)) (p : SPat)
    (hd : (d.map Prod.fst).Nodup) :
    ((socialStep links pt plat d p).map Prod.fst).Nodup := by
  unfold socialStep
  split
  · exact pyUpdate_keys_nodup d plat _ hd
  · split
    · exact hd
    · split
      · exact pyUpdate_keys_nodup d plat _ hd
      · exact hd

theorem socialStep_prov (links : List String) (pt : String) (plat : String)
    (d : List (String × SocialEntry)) (p : SPat)
    (hp : (plat, p) ∈ pairsOfTable social_patterns)
    (hd : ∀ x ∈ d, SocialProv links pt x) :
    ∀ x ∈ socialStep links pt plat d p, SocialProv links pt x := by
  intro x hx
  unfold socialStep at hx
  split at hx
  · rename_i h u hfl
    rcases pyUpdate_mem d plat _ x hx with h' | rfl
    · exact hd x h'
    · exact ⟨p, hp, Or.inl hfl⟩
  · rename_i hfl
    split at hx
    · exact hd x hx
    · split at hx
      · rename_i h hsc
        rcases pyUpdate_mem d plat _ x hx with h' | rfl
        · exact hd x h'
        · exact ⟨p, hp, Or.inr ⟨hfl, hsc, rfl⟩⟩
      · exact hd x hx

theorem socialPlatform_nodup (links : List String) (pt : String) (plat : String) :
    ∀ (pats : List SPat) (d : List (String × SocialEntry)),
      (d.map Prod.fst).Nodup →
      ((socialPlatform links pt plat pats d).map Prod.fst).Nodup := by
  intro pats
  induction pats with
  | nil => intro d hd; exact hd
  | cons p ps ih =>
    intro d hd
    exact ih _ (socialStep_nodup links pt plat d p hd)

theorem socialPlatform_prov (links : List String) (pt : String) (plat : String) :
    ∀ (pats : List SPat) (d : List (String × SocialEntry)),
      (∀ p ∈ pats, (plat, p) ∈ pairsOfTable social_patterns) →
      (∀ x ∈ d, SocialProv links pt x) →
      ∀ x ∈ socialPlatform links pt plat pats d, SocialProv links pt x := by
  intro pats
  induction pats with
  | nil => intro d _ hd; exact hd
  | cons p ps ih =>
    intro d hp hd
    exact ih _ (fun q hq => hp q (List.mem_cons_of_mem p hq))
      (socialStep_prov links pt plat d p (hp p (List.mem_cons_self p ps)) hd)

theorem pairsOfTable_mem : ∀ (tbl : List (String × List SPat)) (plat : String)
    (pats : List SPat) (p : SPat), (plat, pats) ∈ tbl → p ∈ pats →
    (plat, p) ∈ pairsOfTable tbl := by
  intro tbl
  induction tbl with
  | nil => intro _ _ _ h; cases h
  | cons e rest ih =>
    obtain ⟨plat₀, pats₀⟩ := e
    intro plat pats p hmem hp
    unfold pairsOfTable
    rcases List.mem_cons.mp hmem with he | he
    · injection he with h1 h2
      subst h1; subst h2
      exact List.mem_append_left _ (List.mem_map.mpr ⟨p, hp, rfl⟩)
    · exact List.mem_append_right _ (ih plat pats p he hp)

theorem socialTable_nodup (links : List String) (pt : String) :
    ∀ (tbl : List (String × List SPat)) (d : List (String × SocialEntry)),
      (d.map Prod.fst).Nodup →
      ((socialTable links pt tbl d).map Prod.fst).Nodup := by
  intro tbl
  induction tbl with
  | nil => intro d hd; exact hd
  | cons e rest ih =>
    obtain ⟨plat, pats⟩ := e
    intro d hd
    exact ih _ (socialPlatform_nodup links pt plat pats d hd)

theorem socialTable_prov (links : List String) (pt : String) :
    ∀ (tbl : List (String × List SPat)) (d : List (String × SocialEntry)),
      (∀ plat pats, (plat, pats) ∈ tbl →
        ∀ p ∈ pats, (plat, p) ∈ pairsOfTable social_patterns) →
      (∀ x ∈ d, SocialProv links pt x) →
      ∀ x ∈ socialTable links pt tbl d, SocialProv links pt x := by
  intro tbl
  induction tbl with
  | nil => intro d _ hd; exact hd
  | cons e rest ih =>
    obtain ⟨plat, pats⟩ := e
    intro d htbl hd
    refine ih _ (fun plat' pats' h' => htbl plat' pats' (List.mem_cons_of_mem _ h')) ?_
    exact socialPlatform_prov links pt plat pats d
      (htbl plat pats (List.mem_cons_self _ _)) hd

/-- C4, counterexample.  On a homepage whose anchors are
`https://instagram.com/acmeshop` and `mailto:x@gmail.com`, the first
instagram pattern link-matches `acmeshop`, but the second instagram pattern
(`@handle`) later link-matches the mailto anchor and *overwrites* the
already-recorded entry — the link-search assignment is not gated on the
platform being unmatched.  So the final instagram entry is the later match,
refuting "a later match for an already-matched platform is ignored / first
match wins". -/
theorem c4_social_counterexample :
    (extract_social_handles
        ["https://instagram.com/acmeshop", "mailto:x@gmail.com"] "").lookup
      "instagram" = some ⟨"gmail.com", "mailto:x@gmail.com"⟩ ∧
    firstLinkMatch ⟨"instagram.com/", urlHandleChar⟩
        ["https://instagram.com/acmeshop", "mailto:x@gmail.com"] =
      some ("acmeshop", "https://instagram.com/acmeshop") := by
  exact ⟨by decide, by decide⟩

/-- C4, amended.  The extractor keeps at most one entry per platform (the
dict keys stay distinct), and every final entry comes from one of that
platform's patterns: either its first-matching anchor, with the original
href kept verbatim as the url, or — when that pattern matched no anchor and
the platform was still unmatched — the full page text, with the url
synthesized as `https://{platform}.com/{handle}`.  Anchor hrefs are tried
before the page text, and the text fallback runs only for a still-unmatched
platform; but a *later pattern's* anchor match for an already-matched
platform overwrites the earlier entry (see the counterexample), so "first
match wins" holds only within a single pattern's anchor scan.  The spec's
example stands: an anchor `https://instagram.com/acmeshop` alone yields
`{handle: "acmeshop", url: "https://instagram.com/acmeshop"}`. -/
theorem c4_social_amended :
    (∀ (links : List String) (pt : String),
      ((extract_social_handles links pt).map Prod.fst).Nodup) ∧
    (∀ (links : List String) (pt : String),
      ∀ x ∈ extract_social_handles links pt, SocialProv links pt x) ∧
    extract_social_handles ["https://instagram.com/acmeshop"] "" =
      [("instagram", ⟨"acmeshop", "https://instagram.com/acmeshop"⟩)] := by
  refine ⟨?_, ?_, by decide⟩
  · intro links pt
    exact socialTable_nodup links pt social_patterns [] List.nodup_nil
  · intro links pt
    refine socialTable_prov links pt social_patterns []
      (fun plat pats h p hp => pairsOfTable_mem social_patterns plat pats p h hp) ?_
    intro x hx
    cases hx

theorem c4_social_amended_witness :
    (("instagram", (⟨"acmeshop", "https://instagram.com/acmeshop"⟩ : SocialEntry)) ∈
      extract_social_handles ["https://instagram.com/acmeshop"] "") ∧
    SocialProv ["https://instagram.com/acmeshop"] ""
      ("instagram", ⟨"acmeshop", "https://instagram.com/acmeshop"⟩) :=
  ⟨by decide,
   c4_social_amended.2.1 ["https://instagram.com/acmeshop"] ""
     ("instagram", ⟨"acmeshop", "https://instagram.com/acmeshop"⟩) (by decide)⟩

/-! ## C7: contact details — phones (`_extract_contact_details`, lines 328–370)

The phone pattern of line 335 is `(\+?1?[-.\s]?)?\(?\d{3}\)?[-.\s]?\d{3}[-.\s]?\d{4}`.
Its only parenthesised group is the *optional prefix* `(\+?1?[-.\s]?)?`;
`re.findall` therefore returns the list of group-1 captures, not the full
matched numbers. -/

/-- The separator class `[-.\s]` of the phone pattern. -/
def phoneSep (c : Char) : Bool :=
  c = '-' || c = '.' || isPySpace c

/-- The alternatives of an optional single-character element `X?` at a
position, as (consumed, remainder) pairs in greedy backtracking order:
take the character when it fits, then leave it. -/
def optChar (p : Char → Bool) : List Char → List (List Char × List Char)
  | [] => [([], [])]
  | c :: cs => if p c then [([c], cs), ([], c :: cs)] else [([], c :: cs)]

/-- The alternatives of the capture group `(\+?1?[-.\s]?)?` at a position,
as (captured text, remainder) pairs in backtracking preference order.  The
group can always match the empty string, so the trailing "group skipped"
alternative coincides with the last listed one (both capture `''`). -/
def g1Alts (cs : List Char) : List (String × List Char) :=
  (optChar (· = '+') cs).flatMap (fun pl =>
    (optChar (· = '1') pl.2).flatMap (fun od =>
      (optChar phoneSep od.2).map (fun se =>
        (⟨pl.1 ++ od.1 ++ se.1⟩, se.2))))

/-- Consume exactly `n` digits. -/
def takeDigits : Nat → List Char → Option (List Char)
  | 0, cs => some cs
  | _ + 1, [] => none
  | n + 1, c :: cs => if c.isDigit then takeDigits n cs else none

/-- The tail `\(?\d{3}\)?[-.\s]?\d{3}[-.\s]?\d{4}` of the phone pattern.
Each optional element here is deterministic: `(`/`)`/separators are never
digits, so skipping a present one makes the following `\d` fail — greedy
matching with backtracking reduces to "take it iff it is there".  Returns
the remainder after the match. -/
def phoneBody (cs : List Char) : Option (List Char) :=
  let cs1 := match cs with | '(' :: r => r | _ => cs
  match takeDigits 3 cs1 with
  | none => none
  | some cs2 =>
    let cs3 := match cs2 with | ')' :: r => r | _ => cs2
    let cs4 := match cs3 with
      | c :: r => if phoneSep c then r else cs3
      | _ => cs3
    match takeDigits 3 cs4 with
    | none => none
    | some cs5 =>
      let cs6 := match cs5 with
        | c :: r => if phoneSep c then r else cs5
        | _ => cs5
      takeDigits 4 cs6

/-- A match attempt of the whole phone pattern at one position: the group-1
alternatives in preference order, each continued by the deterministic tail;
the first success is the regex engine's match.  Returns the group-1 capture
and the matched length. -/
def matchPhoneAt (cs : List Char) : Option (String × Nat) :=
  (g1Alts cs).findSome? (fun ga =>
    (phoneBody ga.2).map (fun rest => (ga.1, cs.length - rest.length)))

/-- The `re.findall` scan: leftmost non-overlapping matches, resuming after
each match; every match is at least one character long (it ends in
`\d{4}`), so `fuel = length` steps suffice. -/
def findallPhoneGo : Nat → List Char → List (String × String)
  | 0, _ => []
  | _, [] => []
  | fuel + 1, c :: cs =>
    match matchPhoneAt (c :: cs) with
    | some (g, len) =>
      (g, ⟨(c :: cs).take len⟩) :: findallPhoneGo fuel ((c :: cs).drop len)
    | none => findallPhoneGo fuel cs

/-- Line 349, `phones = re.findall(phone_pattern, page_text)`: the
pattern has one group, so `findall` yields the group captures. -/
def findallPhone (s : String) : List String :=
  (findallPhoneGo s.data.length s.data).map Prod.fst

/-- Modelled from the spec's words (§4.9 / claim C7), for comparison: the
full phone-number texts the pattern matches in the page, in order. -/
def findallPhoneFull (s : String) : List String :=
  (findallPhoneGo s.data.length s.data).map Prod.snd

/-- The email-exclusion filter of lines 343–344. -/
def excludedEmail (e : String) : Bool :=
  hasSubstr "noreply" (pyLower e) || hasSubstr "no-reply" (pyLower e) ||
  hasSubstr "admin" (pyLower e) || hasSubstr "webmaster" (pyLower e)

/-- Extractor `_extract_contact_details` (lines 328–370).  `emailsRaw` is the oracle
result of `re.findall(email_pattern, page_text)` (line 340 — no claim
depends on the email regex itself), `addressFound` the outcome of the
address-keyword search of lines 353–363 (`some t` when a keyword's parent
text `t` exceeded 20 characters), and `contactPage` the dict returned by
`_scrape_contact_page` (keys `contact_page_emails`/`contact_page_phones`;
`d.update({})` and skipping the update agree, so the truthiness test of
line 367 needs no separate case).  Phone extraction (lines 348–351) is
modelled concretely. -/
def extract_contact_details (emailsRaw : List String) (addressFound : Option String)
    (contactPage : List (String × CVal)) (page_text : String) :
    List (String × CVal) :=
  let d : List (String × CVal) := []
  let d := if emailsRaw ≠ [] then
      (if emailsRaw.filter (fun e => !excludedEmail e) ≠ [] then
        pyUpdate d "emails"
          (.cList (pySetList (emailsRaw.filter (fun e => !excludedEmail e))))
      else d)
    else d
  let d := if findallPhone page_text ≠ [] then
      pyUpdate d "phones" (.cList (pySetList (findallPhone page_text)))
    else d
  let d := match addressFound with
    | some t => pyUpdate d "address" (.cStr t)
    | none => d
  contactPage.foldl (fun d kv => pyUpdate d kv.1 kv.2) d

/-- C7.  On the page text `"Call 555-123-4567"` the phone pattern matches
`" 555-123-4567"` (the optional group takes the leading space), but
`re.findall` returns only the group-1 capture `" "`: the emitted `phones`
entry is `[" "]`, not the de-duplicated full matched numbers
`[" 555-123-4567"]` the claim (and the code's own `# Extract phone numbers`
comment) describes. -/
theorem c7_phones_code_bug :
    (extract_contact_details [] none [] "Call 555-123-4567").lookup "phones" =
      some (.cList [" "]) ∧
    findallPhoneFull "Call 555-123-4567" = [" 555-123-4567"] ∧
    pySetList (findallPhoneFull "Call 555-123-4567") ≠ [" "] := by
  exact ⟨by decide, by decide, by decide⟩
